import Mathlib

/-!
Shallow embedding of the subdomain-enumeration-and-verification pipeline of
`backend/app.py` (functions `is_cache_valid`, `extract_and_clean_subdomains`,
`verify_dns`, `calculate_confidence`, `sanitize_hostname` and the
`/api/recon/subdomains` endpoint `subdomain_finder_enhanced`).

Strings are modelled by Lean `String`, with Python's string primitives
(`strip`, `lower`, `rstrip`, `replace`, `split`, substring membership,
`startswith`/`endswith`) given explicit list-of-character definitions below.
Network effects (the DNS resolver and the crt.sh HTTP fetch) are passed in as
explicit parameters: a `DnsOutcome` records which of the three resolution
attempts of `verify_dns` succeed, and the CT fetch is an `Except` value.
-/

/-! ## Python string primitives -/

/-- Python `str.strip()` on a character list: drop whitespace from both ends. -/
def stripChars (l : List Char) : List Char :=
  ((l.dropWhile Char.isWhitespace).reverse.dropWhile Char.isWhitespace).reverse

/-- Python `s.strip()`. -/
def pyStrip (s : String) : String := ⟨stripChars s.data⟩

/-- Python `s.lower()` (ASCII range, which is all that reaches the pipeline). -/
def pyLower (s : String) : String := ⟨s.data.map Char.toLower⟩

/-- Python `s.rstrip(".")`: drop all trailing dots. -/
def rstripDot (s : String) : String :=
  ⟨(s.data.reverse.dropWhile (· == '.')).reverse⟩

/-- Python `s.startswith(pre)`. -/
def pyStartsWith (s pre : String) : Bool := pre.data.isPrefixOf s.data

/-- Python `s.endswith(suf)`. -/
def pyEndsWith (s suf : String) : Bool := suf.data.isSuffixOf s.data

/-- Substring search: does `needle` occur as a contiguous run in `hay`? -/
def containsSub (hay needle : List Char) : Bool :=
  match hay with
  | [] => needle.isEmpty
  | _ :: rest => needle.isPrefixOf hay || containsSub rest needle

/-- Python `sub in s` (substring containment). -/
def pyContains (s sub : String) : Bool := containsSub s.data sub.data

/-- Lexicographic-by-code-point comparison of character lists: Python's
`<=` on strings, the order used by `list.sort(key=lambda x: x["host"])`. -/
def charListLe : List Char → List Char → Bool
  | [], _ => true
  | _ :: _, [] => false
  | a :: as, b :: bs =>
    if a.toNat < b.toNat then true
    else if b.toNat < a.toNat then false
    else charListLe as bs

/-- Python `s.split(sep)` for a one-character separator. -/
def splitChars (sep : Char) : List Char → List Char → List String
  | [], acc => [⟨acc.reverse⟩]
  | c :: rest, acc =>
    if c == sep then (⟨acc.reverse⟩ : String) :: splitChars sep rest []
    else splitChars sep rest (c :: acc)

/-- Python `s.split(sep)` for a one-character separator (always non-empty;
adjacent separators yield empty pieces, as in Python). -/
def pySplit (s : String) (sep : Char) : List String := splitChars sep s.data []

/-- Python `s[:n]` is not needed; `strDrop s n` models dropping the first
`n` characters (used for stripping a leading wildcard marker). -/
def strDrop (s : String) (n : Nat) : String := ⟨s.data.drop n⟩

/-- Python `s.split(sep)[0]` for a one-character separator: the characters
before the first occurrence of `sep`. -/
def splitHead (s : String) (sep : Char) : String :=
  ⟨s.data.takeWhile (fun c => !(c == sep))⟩

/-- Python `s.replace(pat, "")` for a non-empty pattern `p :: ps`: remove
occurrences of the pattern left to right. The fuel argument (instantiated
with the list length, an upper bound on the number of steps) keeps the
recursion structural; the fuel-exhausted branch is unreachable. -/
def replaceAllFuel (p : Char) (ps : List Char) : Nat → List Char → List Char
  | _, [] => []
  | 0, l => l
  | fuel + 1, c :: rest =>
    if (p :: ps).isPrefixOf (c :: rest) then replaceAllFuel p ps fuel (rest.drop ps.length)
    else c :: replaceAllFuel p ps fuel rest

/-- Python `s.replace(pat, "")`, empty pattern mapped to the identity. -/
def pyRemoveAll (s pat : String) : String :=
  match pat.data with
  | [] => s
  | p :: ps => ⟨replaceAllFuel p ps s.data.length s.data⟩

/-! ## Hostname regular expression

`HOSTNAME_REGEX` and `SAFE_HOSTNAME_RE` in `app.py` are the same pattern:
`^(?=.{1,253}$)([a-z0-9](?:[a-z0-9-]{0,61}[a-z0-9])?)(?:\.[a-z0-9](?:[a-z0-9-]{0,61}[a-z0-9])?)*$`
compiled with `re.IGNORECASE`: a dot-separated sequence of labels, each label
1 to 63 characters, beginning and ending with an ASCII letter or digit, with
letters, digits and hyphens inside, total length 1 to 253 characters. -/

/-- One label of the hostname grammar: `[a-z0-9](?:[a-z0-9-]{0,61}[a-z0-9])?`
under `re.IGNORECASE`. -/
def validLabel (l : String) : Bool :=
  decide (1 ≤ l.data.length) && decide (l.data.length ≤ 63) &&
  (match l.data.head? with
   | some c => c.isAlphanum
   | none => false) &&
  (match l.data.getLast? with
   | some c => c.isAlphanum
   | none => false) &&
  l.data.all (fun c => c.isAlphanum || c == '-')

/-- The whole hostname pattern, match anchored at both ends. -/
def hostnameRegexMatch (s : String) : Bool :=
  decide (1 ≤ s.data.length) && decide (s.data.length ≤ 253) &&
  (pySplit s '.').all validLabel

/-! ## Data model -/

/-- The per-subdomain record built by `extract_and_clean_subdomains` and
updated in place by the verification phase of the endpoint. -/
structure SubdomainCandidate where
  host : String
  wildcard : Bool
  resolves : Bool
  records : List String
  confidence : String
deriving Repr, DecidableEq

/-- Which of the three resolution attempts of `verify_dns` (A, then AAAA,
then CNAME) succeed. A resolver exception or timeout on an attempt is a
failed attempt; the case where building the resolver itself raises maps to
all three attempts failing. -/
structure DnsOutcome where
  a : Bool
  aaaa : Bool
  cname : Bool
deriving Repr, DecidableEq

/-- Result of `verify_dns`, instrumented with the list of queries issued so
that the wildcard short-circuit ("no query is sent") is observable. -/
structure DnsResult where
  resolves : Bool
  records : List String
  queries : List String
deriving Repr, DecidableEq

/-! ## Cache validity (`is_cache_valid`) -/

/-- `CACHE_DURATION_HOURS` in `app.py`. -/
def CACHE_DURATION_HOURS : Int := 24

/-- `is_cache_valid` from `app.py`: the stored timestamp parses and
`datetime.now() - cached_time < timedelta(hours=24)`. Instants are modelled
as integer seconds; `none` models a missing or unparsable timestamp string
(the `except` branch returning `False`). `now` is the current time, passed
explicitly. -/
def is_cache_valid (now : Int) (timestamp : Option Int) : Bool :=
  match timestamp with
  | none => false
  | some cached_time => decide (now - cached_time < CACHE_DURATION_HOURS * 3600)

/-! ## Candidate extraction (`extract_and_clean_subdomains`) -/

/-- One crt.sh entry: the `name_value` field (`entry.get("name_value", "")`,
so a missing field is the empty string). -/
structure CTEntry where
  name_value : String
deriving Repr, DecidableEq

/-- Running state of the extraction loop: the set of raw candidate lines
(as a duplicate-free list, standing for the Python `set`) and the cleaned
candidate map (as an insertion-ordered association list, standing for the
Python `dict`). -/
structure ExtractState where
  raw_candidates : List String
  cleaned : List (String × SubdomainCandidate)
deriving Repr, DecidableEq

/-- The filtering applied to one stripped, non-empty line of a `name_value`
field: the junk checks, normalization, wildcard handling, regex validation
and target-domain containment check of the extraction loop body. Returns
the host key and wildcard flag on acceptance. -/
def cleanLine (domain line : String) : Option (String × Bool) :=
  if pyContains line " " || pyContains line "@" || pyContains line " - " then none
  else
    let normalized := rstripDot (pyStrip (pyLower line))
    let is_wildcard := pyStartsWith normalized "*."
    let check := if is_wildcard then strDrop normalized 2 else normalized
    if hostnameRegexMatch check then
      if (check == pyLower domain) || pyEndsWith check ("." ++ pyLower domain) then
        some (normalized, is_wildcard)
      else none
    else none

/-- The body of the inner loop of `extract_and_clean_subdomains` for one
newline-split line: strip it, skip it when empty, record it among the raw
candidates, and insert the cleaned candidate if the line passes all filters
and its host key is not already present (first occurrence wins). -/
def processLine (domain : String) (st : ExtractState) (line0 : String) : ExtractState :=
  let line := pyStrip line0
  if line.data.isEmpty then st
  else
    let raw := if st.raw_candidates.contains line then st.raw_candidates
               else st.raw_candidates ++ [line]
    match cleanLine domain line with
    | none => ⟨raw, st.cleaned⟩
    | some (host, wc) =>
      if (st.cleaned.lookup host).isSome then ⟨raw, st.cleaned⟩
      else ⟨raw, st.cleaned ++ [(host, ⟨host, wc, false, [], "medium"⟩)]⟩

/-- The body of the outer loop for one crt.sh entry: take its `name_value`,
strip it, skip the entry when empty, and process every newline-split line. -/
def processEntry (domain : String) (st : ExtractState) (entry : CTEntry) : ExtractState :=
  let nv := pyStrip entry.name_value
  if nv.data.isEmpty then st
  else (pySplit nv '\n').foldl (processLine domain) st

/-- `extract_and_clean_subdomains(raw_data, domain)` from `app.py`:
returns `(len(raw_candidates), cleaned_subdomains)`. -/
def extract_and_clean_subdomains (raw_data : List CTEntry) (domain : String) :
    Nat × List (String × SubdomainCandidate) :=
  let st := raw_data.foldl (processEntry domain) ⟨[], []⟩
  (st.raw_candidates.length, st.cleaned)

/-! ## DNS verification (`verify_dns`) -/

/-- `verify_dns(hostname, timeout)` from `app.py`. Wildcard hostnames
short-circuit to no resolution, no records and no queries. Otherwise the
three attempts run in order A, AAAA, CNAME; a successful attempt sets
`resolves` and appends its record type (the AAAA and CNAME appends are
guarded by a membership test, as in the source). The query log lists the
three attempted record types. -/
def verify_dns (hostname : String) (o : DnsOutcome) : DnsResult :=
  if pyStartsWith hostname "*." then ⟨false, [], []⟩
  else
    let st1 : Bool × List String :=
      if o.a then (true, [] ++ ["A"]) else (false, [])
    let st2 : Bool × List String :=
      if o.aaaa then
        (true, if st1.2.contains "AAAA" then st1.2 else st1.2 ++ ["AAAA"])
      else st1
    let st3 : Bool × List String :=
      if o.cname then
        (true, if st2.2.contains "CNAME" then st2.2 else st2.2 ++ ["CNAME"])
      else st2
    ⟨st3.1, st3.2, ["A", "AAAA", "CNAME"]⟩

/-! ## Confidence scoring (`calculate_confidence`) -/

/-- `calculate_confidence(resolves, hostname)` from `app.py`. `pyIsdigit`
below models Python `str.isdigit` on the first dot-separated label. -/
def pyIsdigit (s : String) : Bool := !s.data.isEmpty && s.data.all Char.isDigit

/-- The confidence scorer of `app.py`: wildcard hosts are `"medium"`,
resolving hosts `"high"`, non-resolving hosts with an all-digit first label
`"low"`, everything else `"medium"`. -/
def calculate_confidence (resolves : Bool) (hostname : String) : String :=
  if pyStartsWith hostname "*." then "medium"
  else if resolves then "high"
  else
    let labels := pySplit hostname '.'
    if decide (0 < labels.length) && pyIsdigit (labels.headD "") then "low"
    else "medium"

/-- The `verify_one` closure of the endpoint: run `verify_dns` on the
candidate's host and update its `resolves`, `records` and `confidence`
fields. -/
def verify_one (oracle : String → DnsOutcome) (c : SubdomainCandidate) : SubdomainCandidate :=
  let r := verify_dns c.host (oracle c.host)
  { c with resolves := r.resolves, records := r.records,
           confidence := calculate_confidence r.resolves c.host }

/-! ## The endpoint (`subdomain_finder_enhanced`) -/

/-- The report returned by the endpoint and stored in the cache. The success
body carries no `error` key (`error := none`); failure bodies set it. -/
structure SubdomainReport where
  domain : String
  total_raw : Nat
  total_clean : Nat
  subdomains : List SubdomainCandidate
  error : Option String
deriving Repr, DecidableEq

/-- One value of the on-disk cache map: `{timestamp, data}`; a `none`
timestamp models a missing or unparsable timestamp string. -/
structure CacheEntry where
  timestamp : Option Int
  data : SubdomainReport
deriving Repr, DecidableEq

/-- The cache dictionary, as an insertion-ordered association list. -/
abbrev Cache := List (String × CacheEntry)

/-- A response of the endpoint: either a bare `{error}` body (the 400 paths
and the final catch-all) or a report body, with its HTTP status. -/
inductive ApiResponse where
  | errorOnly (status : Nat) (msg : String)
  | report (status : Nat) (r : SubdomainReport)
deriving Repr, DecidableEq

/-- Observable outcome of one request: the response, the cache as left on
disk, how many crt.sh fetches were issued, and which hosts were submitted
for DNS verification. -/
structure EndpointResult where
  response : ApiResponse
  finalCache : Cache
  fetchAttempts : Nat
  dnsVerified : List String
deriving Repr, DecidableEq

/-- `sanitize_hostname` from `app.py`: falsy input is rejected; the value is
stripped and lowercased, scheme markers removed, path and port cut off, and
the result is kept only when it matches `SAFE_HOSTNAME_RE`. -/
def sanitize_hostname (value : String) : Option String :=
  if value.data.isEmpty then none
  else
    let c1 := pyLower (pyStrip value)
    let c2 := splitHead (pyRemoveAll (pyRemoveAll c1 "https://") "http://") '/'
    let c3 := splitHead c2 ':'
    if hostnameRegexMatch c3 then some c3 else none

/-- The endpoint's redundant second protocol/port strip:
`domain.replace("http://", "").replace("https://", "").split("/")[0].split(":")[0]`. -/
def stripProtocolPort (s : String) : String :=
  splitHead (splitHead (pyRemoveAll (pyRemoveAll s "http://") "https://") '/') ':'

/-- Python dict assignment `cache[key] = value` on the association list:
overwrite in place when the key is present, append otherwise. -/
def dictInsert (m : Cache) (k : String) (v : CacheEntry) : Cache :=
  if (m.lookup k).isSome then m.map (fun p => if p.1 == k then (k, v) else p)
  else m ++ [(k, v)]

/-- Candidate comparison used by `verified_subdomains.sort(key=lambda x: x["host"])`:
lexicographic order on the `host` strings. -/
def hostLe (a b : SubdomainCandidate) : Prop := charListLe a.host.data b.host.data = true

instance : DecidableRel hostLe := fun _ _ => instDecidableEqBool _ _

/-- The successful-fetch tail of the endpoint: extraction, the bounded
concurrent verification fan-out, the post-hoc sort by host and the response
body. `oracle` gives each hostname its DNS outcome; `reorder` stands for the
`as_completed` collection order of the thread pool (an arbitrary reordering
of the verified list, a permutation in every run of the source). -/
def buildReport (domain : String) (raw_data : List CTEntry)
    (oracle : String → DnsOutcome)
    (reorder : List SubdomainCandidate → List SubdomainCandidate) : SubdomainReport :=
  let ex := extract_and_clean_subdomains raw_data domain
  let subdomain_list := ex.2.map Prod.snd
  let verified := reorder (subdomain_list.map (verify_one oracle))
  let sorted := verified.insertionSort hostLe
  { domain := domain, total_raw := ex.1, total_clean := sorted.length,
    subdomains := sorted, error := none }

/-- `subdomain_finder_enhanced` from `app.py`: read the request domain,
validate it, strip scheme and port, consult the cache, and on a miss run the
fetch-extract-verify-sort pipeline and overwrite the cache entry.
`reqDomain` models `data.get("domain")` (`none` for a missing key, mapped to
`""` by `or ""`); `now` is the current time; `fetchResult` is the outcome of
the single `requests.get` to crt.sh. -/
def subdomain_finder_enhanced (reqDomain : Option String) (cache : Cache) (now : Int)
    (fetchResult : Except String (List CTEntry)) (oracle : String → DnsOutcome)
    (reorder : List SubdomainCandidate → List SubdomainCandidate) : EndpointResult :=
  let domain0 := pyLower (pyStrip (reqDomain.getD ""))
  if domain0.data.isEmpty then
    ⟨.errorOnly 400 "Please provide a valid domain name (e.g., example.com)", cache, 0, []⟩
  else
    match sanitize_hostname domain0 with
    | none => ⟨.errorOnly 400 "Invalid domain format. Please provide a valid domain name.", cache, 0, []⟩
    | some d1 =>
      let domain := stripProtocolPort d1
      let key := "subdomains_" ++ domain
      let hit : Option SubdomainReport :=
        match cache.lookup key with
        | some entry =>
          if is_cache_valid now entry.timestamp then some entry.data else none
        | none => none
      match hit with
      | some rep => ⟨.report 200 rep, cache, 0, []⟩
      | none =>
        match fetchResult with
        | .error e =>
          ⟨.report 500 ⟨domain, 0, 0, [], some ("Failed to fetch from crt.sh: " ++ e)⟩,
            cache, 1, []⟩
        | .ok raw_data =>
          let rep := buildReport domain raw_data oracle reorder
          let cache2 := dictInsert cache key ⟨some now, rep⟩
          ⟨.report 200 rep, cache2, 1,
            (extract_and_clean_subdomains raw_data domain).2.map (fun p => p.2.host)⟩

/-! ## The confidence scorer as the spec words it (for claim C4) -/

/-- The confidence scorer exactly as the spec describes it, written from the
spec's words for comparison with `calculate_confidence`: wildcard host →
medium; resolving host → high; non-resolving host whose first dot-separated
label is all digits → low; otherwise medium. -/
def confidenceSpec (resolves : Bool) (host : String) : String :=
  if pyStartsWith host "*." then "medium"
  else if resolves then "high"
  else if pyIsdigit ((pySplit host '.').headD "") then "low"
  else "medium"

/-! ## Claim theorems: scorer, cache, DNS verifier -/

/-- C4: for every `(resolves, host)`, `calculate_confidence` is the pure
function of the spec: `"medium"` on a host starting with `"*."`, else
`"high"` when it resolves, else `"low"` when the first dot-separated label
is all digits, else `"medium"`. -/
theorem C4_confidence_scorer (resolves : Bool) (host : String) :
    calculate_confidence resolves host = confidenceSpec resolves host := by
  unfold calculate_confidence confidenceSpec
  cases hs : pySplit host '.' with
  | nil => simp [hs, pyIsdigit]
  | cons l ls => simp [hs]

/-- C5: an entry stored at time `T` is fresh at `T + 23h59m`, stale at
`T + 24h01m`, and in general fresh exactly when the elapsed time is strictly
less than 24 hours. -/
theorem C5_cache_freshness (T : Int) :
    is_cache_valid (T + (23 * 3600 + 59 * 60)) (some T) = true ∧
    is_cache_valid (T + (24 * 3600 + 60)) (some T) = false ∧
    (∀ now : Int, is_cache_valid now (some T) = true ↔ now - T < 24 * 3600) := by
  refine ⟨?_, ?_, fun now => ?_⟩ <;>
    simp only [is_cache_valid, CACHE_DURATION_HOURS, decide_eq_true_eq,
      decide_eq_false_iff_not] <;> omega

/-- C3: for a non-wildcard hostname, `verify_dns` resolves iff at least one
of the three attempts succeeded, and its records are exactly the successful
record types in attempt order A, AAAA, CNAME, without duplicates. -/
theorem C3_dns_verifier (host : String) (o : DnsOutcome)
    (h : pyStartsWith host "*." = false) :
    ((verify_dns host o).resolves = (o.a || o.aaaa || o.cname)) ∧
    ((verify_dns host o).records =
      (if o.a then ["A"] else []) ++ (if o.aaaa then ["AAAA"] else []) ++
        (if o.cname then ["CNAME"] else [])) ∧
    (verify_dns host o).records.Nodup := by
  rcases o with ⟨a, aaaa, cname⟩
  cases a <;> cases aaaa <;> cases cname <;>
    simp [verify_dns, h, List.contains]

/-- Witness for C3 at `host = "www.example.com"` with the A and CNAME
attempts succeeding and the AAAA attempt failing. -/
theorem C3_dns_verifier_witness :
    ((verify_dns "www.example.com" ⟨true, false, true⟩).resolves = (true || false || true)) ∧
    ((verify_dns "www.example.com" ⟨true, false, true⟩).records =
      (if true then ["A"] else []) ++ (if false then ["AAAA"] else []) ++
        (if true then ["CNAME"] else [])) ∧
    (verify_dns "www.example.com" ⟨true, false, true⟩).records.Nodup :=
  C3_dns_verifier "www.example.com" ⟨true, false, true⟩ (by decide)

/-- C2: for every candidate whose host starts with `"*."`, verification
leaves `resolves` false and empty records, issues no DNS query, and scores
confidence `"medium"`, whatever the DNS oracle answers. -/
theorem C2_wildcard_invariant (c : SubdomainCandidate) (oracle : String → DnsOutcome)
    (h : pyStartsWith c.host "*." = true) :
    (verify_one oracle c).resolves = false ∧
    (verify_one oracle c).confidence = "medium" ∧
    (verify_one oracle c).records = [] ∧
    (verify_dns c.host (oracle c.host)).queries = [] := by
  simp [verify_one, verify_dns, calculate_confidence, h]

/-- Witness for C2 at host `"*.example.com"` with an oracle that would
answer every query successfully. -/
theorem C2_wildcard_invariant_witness :
    (verify_one (fun _ => ⟨true, true, true⟩) ⟨"*.example.com", true, false, [], "medium"⟩).resolves = false ∧
    (verify_one (fun _ => ⟨true, true, true⟩) ⟨"*.example.com", true, false, [], "medium"⟩).confidence = "medium" ∧
    (verify_one (fun _ => ⟨true, true, true⟩) ⟨"*.example.com", true, false, [], "medium"⟩).records = [] ∧
    (verify_dns "*.example.com" ((fun _ => (⟨true, true, true⟩ : DnsOutcome)) "*.example.com")).queries = [] :=
  C2_wildcard_invariant ⟨"*.example.com", true, false, [], "medium"⟩ (fun _ => ⟨true, true, true⟩) (by decide)

/-! ## Claim C1: the end-to-end extraction scenario -/

/-- Counterexample to C1 as stated: on the scenario input the extraction
returns `total_raw = 4`, not `3` — the first entry's `name_value` splits
into two raw lines, and `total_raw` counts the set of non-empty lines, not
the entries. -/
theorem C1_scenario_counterexample :
    (extract_and_clean_subdomains
      [⟨"www.example.com\nmail.example.com"⟩, ⟨"bad entry with space"⟩, ⟨"*.example.com"⟩]
      "example.com").1 ≠ 3 := by decide

/-- C1 amended: the scenario input yields `total_raw = 4` (the four distinct
non-empty newline-split lines), and the cleaned candidate map holds exactly
the keys `www.example.com`, `mail.example.com`, `*.example.com` in insertion
order — the space-containing entry is discarded. -/
theorem C1_scenario_amended :
    (extract_and_clean_subdomains
      [⟨"www.example.com\nmail.example.com"⟩, ⟨"bad entry with space"⟩, ⟨"*.example.com"⟩]
      "example.com").1 = 4 ∧
    ((extract_and_clean_subdomains
      [⟨"www.example.com\nmail.example.com"⟩, ⟨"bad entry with space"⟩, ⟨"*.example.com"⟩]
      "example.com").2.map Prod.fst) =
      ["www.example.com", "mail.example.com", "*.example.com"] := by
  exact ⟨by decide, by decide⟩

/-! ## Helper lemmas: lowercasing, stripping, and the shape of cleaned hosts -/

/-- `Char.ofNat` round-trips on the code points of lowercase ASCII letters. -/
theorem toNat_ofNat_lower (n : Nat) (h1 : 97 ≤ n) (h2 : n ≤ 122) :
    (Char.ofNat n).toNat = n := by
  interval_cases n <;> decide

/-- ASCII lowercasing is idempotent. -/
theorem toLower_toLower (c : Char) : c.toLower.toLower = c.toLower := by
  by_cases h : c.toNat ≥ 65 ∧ c.toNat ≤ 90
  · have h1 : c.toLower = Char.ofNat (c.toNat + 32) := by
      unfold Char.toLower
      rw [if_pos h]
    have h2 : (Char.ofNat (c.toNat + 32)).toNat = c.toNat + 32 :=
      toNat_ofNat_lower _ (by omega) (by omega)
    rw [h1]
    unfold Char.toLower
    rw [if_neg]
    rw [h2]
    omega
  · have h1 : c.toLower = c := by
      unfold Char.toLower
      rw [if_neg h]
    rw [h1, h1]

/-- Stripping only removes characters. -/
theorem mem_of_mem_stripChars {c : Char} {l : List Char} (h : c ∈ stripChars l) : c ∈ l := by
  unfold stripChars at h
  rw [List.mem_reverse] at h
  have h2 := (List.dropWhile_sublist _).mem h
  rw [List.mem_reverse] at h2
  exact (List.dropWhile_sublist _).mem h2

/-- Removing trailing dots only removes characters. -/
theorem mem_of_mem_rstripDot {c : Char} {s : String} (h : c ∈ (rstripDot s).data) :
    c ∈ s.data := by
  unfold rstripDot at h
  rw [List.mem_reverse] at h
  have h2 := (List.dropWhile_sublist _).mem h
  rw [List.mem_reverse] at h2
  exact h2

/-- A string all of whose characters are fixed by lowercasing is fixed by
`pyLower`. -/
theorem pyLower_eq_self {s : String} (h : ∀ c ∈ s.data, c.toLower = c) : pyLower s = s := by
  apply String.ext
  show s.data.map Char.toLower = s.data
  calc s.data.map Char.toLower = s.data.map id := List.map_congr_left h
    _ = s.data := List.map_id s.data

/-- The normalized host built by the extraction loop is already lowercase. -/
theorem pyLower_normalized (line : String) :
    pyLower (rstripDot (pyStrip (pyLower line))) = rstripDot (pyStrip (pyLower line)) := by
  apply pyLower_eq_self
  intro c hc
  have h1 : c ∈ (pyStrip (pyLower line)).data := mem_of_mem_rstripDot hc
  have h2 : c ∈ (pyLower line).data := mem_of_mem_stripChars h1
  obtain ⟨c0, _, rfl⟩ := List.mem_map.mp h2
  exact toLower_toLower c0

/-- The normalized host built by the extraction loop has no trailing dot. -/
theorem rstripDot_no_trailing_dot (s : String) : pyEndsWith (rstripDot s) "." = false := by
  rw [Bool.eq_false_iff]
  intro h
  unfold pyEndsWith rstripDot at h
  rw [List.isSuffixOf_iff_suffix] at h
  have hsuf : ['.'] <:+ (s.data.reverse.dropWhile (· == '.')).reverse := h
  rw [show (['.'] : List Char) = ['.'].reverse from rfl, List.reverse_suffix] at hsuf
  obtain ⟨t, ht⟩ := hsuf
  have hhead := List.head?_dropWhile_not (· == '.') s.data.reverse
  rw [← ht] at hhead
  simp at hhead

/-- Shape of an accepted line: the host key is the normalized line and the
wildcard flag is the `"*."`-prefix test on it. -/
theorem cleanLine_host {domain line host : String} {wc : Bool}
    (h : cleanLine domain line = some (host, wc)) :
    host = rstripDot (pyStrip (pyLower line)) ∧ wc = pyStartsWith host "*." := by
  simp only [cleanLine] at h
  split at h
  · simp at h
  · split at h
    · split at h
      · split at h
        · rw [Option.some.injEq, Prod.mk.injEq] at h
          obtain ⟨hh, hwq⟩ := h
          subst hh
          subst hwq
          exact ⟨rfl, rfl⟩
        · simp at h
      · simp at h
    · split at h
      · split at h
        · rw [Option.some.injEq, Prod.mk.injEq] at h
          obtain ⟨hh, hwq⟩ := h
          subst hh
          subst hwq
          exact ⟨rfl, rfl⟩
        · simp at h
      · simp at h

/-- A wildcard host whose marker-stripped remainder is the target domain or
a dot-suffix of it itself ends with `"." ++ domain`. -/
theorem contained_of_wildcard {N dl : String} (hw : pyStartsWith N "*." = true)
    (hdom : strDrop N 2 = dl ∨ pyEndsWith (strDrop N 2) ("." ++ dl) = true) :
    pyEndsWith N ("." ++ dl) = true := by
  unfold pyStartsWith at hw
  rw [List.isPrefixOf_iff_prefix] at hw
  obtain ⟨t, ht⟩ := hw
  have hdata : N.data = '*' :: '.' :: t := by
    rw [← ht]
    rfl
  have hdrop : (strDrop N 2).data = t := by
    unfold strDrop
    rw [hdata]
    rfl
  unfold pyEndsWith
  rw [List.isSuffixOf_iff_suffix, String.data_append]
  rcases hdom with heq | hsuf
  · have htdl : t = dl.data := by
      rw [← hdrop, heq]
    rw [hdata, htdl]
    exact ⟨['*'], rfl⟩
  · unfold pyEndsWith at hsuf
    rw [List.isSuffixOf_iff_suffix, String.data_append, hdrop] at hsuf
    have h2 : t <:+ N.data := by
      rw [hdata]
      exact ⟨['*', '.'], rfl⟩
    exact hsuf.trans h2

/-- An accepted host equals the lowercased target domain or ends with
`"." ++` the lowercased target domain — with the wildcard marker retained. -/
theorem cleanLine_contained {domain line host : String} {wc : Bool}
    (h : cleanLine domain line = some (host, wc)) :
    host = pyLower domain ∨ pyEndsWith host ("." ++ pyLower domain) = true := by
  simp only [cleanLine] at h
  split at h
  · simp at h
  · split at h
    · split at h
      · split at h
        · rename_i hjunk hw hregex hdom
          rw [Option.some.injEq, Prod.mk.injEq] at h
          obtain ⟨hh, hwq⟩ := h
          subst hh
          rw [Bool.or_eq_true, beq_iff_eq] at hdom
          exact Or.inr (contained_of_wildcard hw hdom)
        · simp at h
      · simp at h
    · split at h
      · split at h
        · rename_i hjunk hw hregex hdom
          rw [Option.some.injEq, Prod.mk.injEq] at h
          obtain ⟨hh, hwq⟩ := h
          subst hh
          rw [Bool.or_eq_true, beq_iff_eq] at hdom
          exact hdom
        · simp at h
      · simp at h

/-- Processing one line either leaves the cleaned map unchanged or appends
the accepted candidate for the stripped line, built with the default
`resolves`/`records`/`confidence` fields. -/
theorem processLine_cleaned_mem {domain : String} {st : ExtractState} {line0 : String}
    {p : String × SubdomainCandidate} (hp : p ∈ (processLine domain st line0).cleaned) :
    p ∈ st.cleaned ∨
    ∃ wc, cleanLine domain (pyStrip line0) = some (p.1, wc) ∧
      p.2 = ⟨p.1, wc, false, [], "medium"⟩ := by
  simp only [processLine] at hp
  split at hp
  · exact Or.inl hp
  · split at hp
    · exact Or.inl hp
    · rename_i host wc hcl
      split at hp
      · exact Or.inl hp
      · rcases List.mem_append.mp hp with hold | hnew
        · exact Or.inl hold
        · rw [List.mem_singleton] at hnew
          right
          exact ⟨wc, by rw [hcl, hnew], by rw [hnew]⟩

/-- A property preserved by every fold step holds of the fold result. -/
theorem foldl_preserve {α β : Type} (f : β → α → β) (P : β → Prop)
    (hstep : ∀ b a, P b → P (f b a)) : ∀ (l : List α) (b : β), P b → P (l.foldl f b)
  | [], _, hb => hb
  | a :: t, b, hb => foldl_preserve f P hstep t (f b a) (hstep b a hb)

/-- Every candidate in the extraction result comes from some line accepted
by the filter, with the default verification fields. -/
theorem extract_cleaned_mem {raw_data : List CTEntry} {domain : String}
    {p : String × SubdomainCandidate}
    (hp : p ∈ (extract_and_clean_subdomains raw_data domain).2) :
    ∃ wc line, cleanLine domain line = some (p.1, wc) ∧
      p.2 = ⟨p.1, wc, false, [], "medium"⟩ := by
  have hfold := foldl_preserve (processEntry domain)
    (fun st => ∀ q ∈ st.cleaned, ∃ wc line, cleanLine domain line = some (q.1, wc) ∧
      q.2 = ⟨q.1, wc, false, [], "medium"⟩)
    ?_ raw_data ⟨[], []⟩ ?_
  · exact hfold p hp
  · intro st entry hst
    simp only [processEntry]
    split
    · exact hst
    · apply foldl_preserve (processLine domain)
        (fun st2 => ∀ q ∈ st2.cleaned, ∃ wc line, cleanLine domain line = some (q.1, wc) ∧
          q.2 = ⟨q.1, wc, false, [], "medium"⟩)
        ?_ _ st hst
      intro st2 line hst2 q hq
      rcases processLine_cleaned_mem hq with hold | ⟨wc, hcl, hq2⟩
      · exact hst2 q hold
      · exact ⟨wc, pyStrip line, hcl, hq2⟩
  · intro q hq
    simp at hq

/-- C6: for a lowercase queried domain, every host in the cleaned candidate
map equals the domain or ends with `"." ++ domain` — for wildcard hosts with
the leading `"*."` retained. -/
theorem C6_subdomain_containment (raw_data : List CTEntry) (domain : String)
    (hdl : pyLower domain = domain) :
    ((extract_and_clean_subdomains raw_data domain).2.all fun p =>
      (p.2.host == domain) || pyEndsWith p.2.host ("." ++ domain)) = true := by
  rw [List.all_eq_true]
  intro p hp
  obtain ⟨wc, line, hcl, hp2⟩ := extract_cleaned_mem hp
  have hcont := cleanLine_contained hcl
  rw [hdl] at hcont
  have hhost : p.2.host = p.1 := by rw [hp2]
  rw [Bool.or_eq_true, beq_iff_eq, hhost]
  exact hcont

/-- Witness for C6 on a mixed wildcard and plain input for domain
`example.com`. -/
theorem C6_subdomain_containment_witness :
    ((extract_and_clean_subdomains [⟨"www.example.com\n*.example.com\nother.org"⟩]
        "example.com").2.all fun p =>
      (p.2.host == "example.com") || pyEndsWith p.2.host ("." ++ "example.com")) = true :=
  C6_subdomain_containment [⟨"www.example.com\n*.example.com\nother.org"⟩] "example.com"
    (by decide)

/-- C10: in the cleaned candidate map every key is its candidate's host,
every host is lowercase with no trailing dot, and the wildcard flag holds
exactly for hosts starting with `"*."`. -/
theorem C10_candidate_map_invariants (raw_data : List CTEntry) (domain : String) :
    ((extract_and_clean_subdomains raw_data domain).2.all fun p =>
      (p.1 == p.2.host) && (pyLower p.2.host == p.2.host) &&
      !(pyEndsWith p.2.host ".") && (p.2.wildcard == pyStartsWith p.2.host "*.")) = true := by
  rw [List.all_eq_true]
  intro p hp
  obtain ⟨wc, line, hcl, hp2⟩ := extract_cleaned_mem hp
  obtain ⟨hnorm, hwc⟩ := cleanLine_host hcl
  have hhost : p.2.host = p.1 := by rw [hp2]
  have hwild : p.2.wildcard = wc := by rw [hp2]
  simp only [Bool.and_eq_true, Bool.not_eq_true', beq_iff_eq]
  refine ⟨⟨⟨hhost.symm, ?_⟩, ?_⟩, ?_⟩
  · rw [hhost, hnorm]
    exact pyLower_normalized line
  · rw [hhost, hnorm]
    exact rstripDot_no_trailing_dot _
  · rw [hwild, hhost, hwc]

/-! ## Order lemmas for the output sort -/

/-- Unfolding of the host comparison on non-empty lists. -/
theorem charListLe_cons {a b : Char} {as bs : List Char} :
    charListLe (a :: as) (b :: bs) = true ↔
      a.toNat < b.toNat ∨ (a.toNat = b.toNat ∧ charListLe as bs = true) := by
  simp only [charListLe]
  split
  · rename_i h1
    simp [h1]
  · rename_i h1
    split
    · rename_i h2
      constructor
      · intro h
        simp at h
      · rintro (h | ⟨he, _⟩) <;> omega
    · rename_i h2
      constructor
      · intro h
        exact Or.inr ⟨by omega, h⟩
      · rintro (h | ⟨_, h⟩)
        · omega
        · exact h

/-- The host comparison is total. -/
theorem charListLe_total : ∀ a b : List Char, charListLe a b = true ∨ charListLe b a = true
  | [], _ => Or.inl rfl
  | _ :: _, [] => Or.inr rfl
  | a :: as, b :: bs => by
    rw [charListLe_cons, charListLe_cons]
    rcases Nat.lt_trichotomy a.toNat b.toNat with h | h | h
    · exact Or.inl (Or.inl h)
    · rcases charListLe_total as bs with ih | ih
      · exact Or.inl (Or.inr ⟨h, ih⟩)
      · exact Or.inr (Or.inr ⟨h.symm, ih⟩)
    · exact Or.inr (Or.inl h)

/-- The host comparison is transitive. -/
theorem charListLe_trans : ∀ a b c : List Char,
    charListLe a b = true → charListLe b c = true → charListLe a c = true
  | [], _, _, _, _ => rfl
  | _ :: _, [], _, hab, _ => by simp [charListLe] at hab
  | _ :: _, _ :: _, [], _, hbc => by simp [charListLe] at hbc
  | a :: as, b :: bs, c :: cs, hab, hbc => by
    rw [charListLe_cons] at hab hbc ⊢
    rcases hab with h1 | ⟨h1, h1r⟩ <;> rcases hbc with h2 | ⟨h2, h2r⟩
    · exact Or.inl (by omega)
    · exact Or.inl (by omega)
    · exact Or.inl (by omega)
    · exact Or.inr ⟨by omega, charListLe_trans as bs cs h1r h2r⟩

/-- Hosts of the verified, sorted report all come from the cleaned candidate
map and are therefore lowercase. -/
theorem buildReport_host_lower {domain : String} {raw_data : List CTEntry}
    {oracle : String → DnsOutcome} {reorder : List SubdomainCandidate → List SubdomainCandidate}
    (hperm : ∀ l, List.Perm (reorder l) l) {c : SubdomainCandidate}
    (hc : c ∈ (buildReport domain raw_data oracle reorder).subdomains) :
    pyLower c.host = c.host := by
  simp only [buildReport] at hc
  rw [List.mem_insertionSort] at hc
  have hc2 := (hperm _).mem_iff.mp hc
  rw [List.mem_map] at hc2
  obtain ⟨c0, hc0, rfl⟩ := hc2
  rw [List.mem_map] at hc0
  obtain ⟨p, hp, rfl⟩ := hc0
  obtain ⟨wc, line, hcl, hp2⟩ := extract_cleaned_mem hp
  obtain ⟨hnorm, _⟩ := cleanLine_host hcl
  have hv : (verify_one oracle p.2).host = p.2.host := rfl
  rw [hv]
  have hh : p.2.host = p.1 := by rw [hp2]
  rw [hh, hnorm]
  exact pyLower_normalized line

/-- C9: for any collection order that is a permutation (as the thread pool's
`as_completed` is in every run) and a non-empty candidate set, the report's
subdomains are pairwise non-decreasing by host under the case-insensitive
lexicographic order, and `total_clean` is their count. -/
theorem C9_sorted_output (domain : String) (raw_data : List CTEntry)
    (oracle : String → DnsOutcome) (reorder : List SubdomainCandidate → List SubdomainCandidate)
    (hperm : ∀ l, List.Perm (reorder l) l)
    (_hne : (buildReport domain raw_data oracle reorder).subdomains ≠ []) :
    (buildReport domain raw_data oracle reorder).subdomains.Pairwise
      (fun a b => charListLe (pyLower a.host).data (pyLower b.host).data = true) ∧
    (buildReport domain raw_data oracle reorder).total_clean =
      (buildReport domain raw_data oracle reorder).subdomains.length := by
  constructor
  · haveI : IsTotal SubdomainCandidate hostLe := ⟨fun a b => charListLe_total _ _⟩
    haveI : IsTrans SubdomainCandidate hostLe := ⟨fun a b c => charListLe_trans _ _ _⟩
    have hs : List.Pairwise hostLe (buildReport domain raw_data oracle reorder).subdomains :=
      List.sorted_insertionSort hostLe _
    refine hs.imp_of_mem ?_
    intro a b ha hb hab
    have la := buildReport_host_lower hperm ha
    have lb := buildReport_host_lower hperm hb
    rw [la, lb]
    exact hab
  · rfl

/-- Witness for C9: two candidates arriving in reverse order come out
sorted, with `total_clean` equal to the output length. -/
theorem C9_sorted_output_witness :
    (buildReport "example.com" [⟨"b.example.com\na.example.com"⟩]
        (fun _ => ⟨false, false, false⟩) id).subdomains.Pairwise
      (fun a b => charListLe (pyLower a.host).data (pyLower b.host).data = true) ∧
    (buildReport "example.com" [⟨"b.example.com\na.example.com"⟩]
        (fun _ => ⟨false, false, false⟩) id).total_clean =
      (buildReport "example.com" [⟨"b.example.com\na.example.com"⟩]
        (fun _ => ⟨false, false, false⟩) id).subdomains.length :=
  C9_sorted_output "example.com" [⟨"b.example.com\na.example.com"⟩]
    (fun _ => ⟨false, false, false⟩) id (fun l => List.Perm.refl l) (by decide)

/-! ## Endpoint theorems: fetch failure and cache hit -/

/-- C7: on a validated domain and a cache miss, a failed crt.sh fetch makes
the endpoint answer 500 with the zeroed report shape plus the error field,
issue exactly one fetch, verify nothing, and leave the cache untouched. -/
theorem C7_upstream_fetch_error (dom d e : String) (cache : Cache) (now : Int)
    (oracle : String → DnsOutcome) (reorder : List SubdomainCandidate → List SubdomainCandidate)
    (h0 : (pyLower (pyStrip dom)).data.isEmpty = false)
    (h1 : sanitize_hostname (pyLower (pyStrip dom)) = some d)
    (h2 : ∀ entry, cache.lookup ("subdomains_" ++ stripProtocolPort d) = some entry →
      is_cache_valid now entry.timestamp = false) :
    subdomain_finder_enhanced (some dom) cache now (.error e) oracle reorder =
      ⟨.report 500 ⟨stripProtocolPort d, 0, 0, [], some ("Failed to fetch from crt.sh: " ++ e)⟩,
        cache, 1, []⟩ := by
  simp only [subdomain_finder_enhanced, Option.getD, h0, Bool.false_eq_true, if_false, h1]
  cases hlk : cache.lookup ("subdomains_" ++ stripProtocolPort d) with
  | none => simp [hlk]
  | some entry => simp [hlk, h2 entry hlk]

/-- C8: on a fresh cache hit the endpoint returns the stored report
verbatim with status 200, issues no fetch, verifies nothing over DNS, and
leaves the cache exactly as it was. -/
theorem C8_cache_hit_frame (dom d : String) (cache : Cache) (now : Int)
    (fetchResult : Except String (List CTEntry)) (oracle : String → DnsOutcome)
    (reorder : List SubdomainCandidate → List SubdomainCandidate) (entry : CacheEntry)
    (h0 : (pyLower (pyStrip dom)).data.isEmpty = false)
    (h1 : sanitize_hostname (pyLower (pyStrip dom)) = some d)
    (h2 : cache.lookup ("subdomains_" ++ stripProtocolPort d) = some entry)
    (h3 : is_cache_valid now entry.timestamp = true) :
    subdomain_finder_enhanced (some dom) cache now fetchResult oracle reorder =
      ⟨.report 200 entry.data, cache, 0, []⟩ := by
  simp only [subdomain_finder_enhanced, Option.getD, h0, Bool.false_eq_true, if_false, h1]
  simp [h2, h3]

/-- Witness for C7: empty cache, failing fetch for `example.com`. -/
theorem C7_upstream_fetch_error_witness :
    subdomain_finder_enhanced (some "example.com") [] 0 (.error "timeout")
        (fun _ => ⟨false, false, false⟩) id =
      ⟨.report 500 ⟨stripProtocolPort "example.com", 0, 0, [],
        some ("Failed to fetch from crt.sh: " ++ "timeout")⟩, [], 1, []⟩ :=
  C7_upstream_fetch_error "example.com" "example.com" "timeout" [] 0
    (fun _ => ⟨false, false, false⟩) id (by decide) (by decide)
    (fun entry h => Option.noConfusion h)

/-- Witness for C8: a fresh entry for `example.com` is returned verbatim. -/
theorem C8_cache_hit_frame_witness :
    subdomain_finder_enhanced (some "example.com")
        [("subdomains_example.com",
          ⟨some 0, ⟨"example.com", 1, 0, [], none⟩⟩)] 0 (.error "unreachable")
        (fun _ => ⟨false, false, false⟩) id =
      ⟨.report 200 (⟨some 0, ⟨"example.com", 1, 0, [], none⟩⟩ : CacheEntry).data,
        [("subdomains_example.com", ⟨some 0, ⟨"example.com", 1, 0, [], none⟩⟩)], 0, []⟩ :=
  C8_cache_hit_frame "example.com" "example.com"
    [("subdomains_example.com", ⟨some 0, ⟨"example.com", 1, 0, [], none⟩⟩)] 0
    (.error "unreachable") (fun _ => ⟨false, false, false⟩) id
    ⟨some 0, ⟨"example.com", 1, 0, [], none⟩⟩
    (by decide) (by decide) (by decide) (by decide)
